import Mathlib

/-!
# Verification of the reactive-state / virtual-DOM core

A shallow embedding of the reactivity engine (`Dep`, `Watcher`,
`defineReactive`, the array method interceptor) and of the virtual-DOM
reconciler (`sameVnode`, `updateChildren`, `patchVnode`) of the
repository, together with theorems settling the specification claims.

Conventions:
* JavaScript objects are identified by numeric ids where reference
  identity matters; JS `===` on such objects becomes equality of ids.
* JS arrays become Lean `List`s; `Array.prototype.slice()` (a defensive
  copy) becomes using the list value as of the moment of the copy.
* Mutation becomes explicit state passing; every operation returns the
  updated state.
-/

namespace VueCore

/-! ## Dependency nodes and watchers (`src/core/observer/dep.js`,
`src/core/observer/watcher.js`)

A `Dep` stores its `id` and the ordered list `subs` of subscribed
watchers; watchers are referenced by their `id` (JS holds object
references, but all operations performed on a subscriber from a dep —
`remove`, `sort by id`, `update()` dispatch — are determined by the id,
so ids are a faithful proxy for references as long as watcher ids are
unique, which the `uid` counter guarantees). -/

structure DepNode where
  id : Nat
  subs : List Nat
  deriving Repr, DecidableEq

/-- The watcher fields involved in dependency bookkeeping
(`Watcher` class fields `id`, `depIds`, `newDepIds`, `deps`, `newDeps`,
`active`).  `deps`/`newDeps` store the ids of the `Dep` objects held, in
array order; `depIds`/`newDepIds` mirror the JS `Set`s (insertion-ordered,
queried only through `has`). -/
structure WatcherSt where
  id : Nat
  depIds : List Nat
  newDepIds : List Nat
  deps : List Nat
  newDeps : List Nat
  active : Bool
  deriving Repr, DecidableEq

/-- The fragment of the reactive system acted on by one watcher's
dependency bookkeeping: the watcher itself plus all dependency nodes. -/
structure RSt where
  w : WatcherSt
  deps : List DepNode
  deriving Repr, DecidableEq

/-- `Dep.addSub(sub)`: `this.subs.push(sub)`, applied to the dep with the
given id. -/
def depAddSub (ds : List DepNode) (depId wid : Nat) : List DepNode :=
  ds.map fun d => if d.id = depId then { d with subs := d.subs ++ [wid] } else d

/-- `Dep.removeSub(sub)`: `remove(this.subs, sub)` — the `remove` utility
deletes the first occurrence. -/
def depRemoveSub (ds : List DepNode) (depId wid : Nat) : List DepNode :=
  ds.map fun d => if d.id = depId then { d with subs := d.subs.erase wid } else d

/-- `Watcher.addDep(dep)`:
if the dep id is not yet in `newDepIds`, record it in `newDepIds` and
`newDeps`, and if it is also absent from `depIds` (the previous run's
set), subscribe via `dep.addSub(this)`. -/
def addDep (st : RSt) (depId : Nat) : RSt :=
  if depId ∈ st.w.newDepIds then st
  else
    { w := { st.w with
               newDepIds := st.w.newDepIds ++ [depId]
               newDeps := st.w.newDeps ++ [depId] }
      deps :=
        if depId ∈ st.w.depIds then st.deps
        else depAddSub st.deps depId st.w.id }

/-- `Watcher.cleanupDeps()`: walk `this.deps` from the back; every dep
whose id is not in `newDepIds` gets `removeSub(this)`; then swap
`depIds ← newDepIds` (clearing the new set) and `deps ← newDeps`
(clearing the new list). -/
def cleanupDeps (st : RSt) : RSt :=
  { w := { st.w with
             depIds := st.w.newDepIds
             newDepIds := []
             deps := st.w.newDeps
             newDeps := [] }
    deps :=
      st.w.deps.reverse.foldl
        (fun acc did =>
          if did ∈ st.w.newDepIds then acc
          else depRemoveSub acc did st.w.id)
        st.deps }

/-- `Watcher.get()`: `pushTarget(this)`, evaluate the getter — during
which every reactive read fires `dep.depend()` and hence
`Dep.target.addDep(dep)` on this watcher — then `popTarget()` and
`cleanupDeps()`.  The evaluation itself is embedded by the list
`touched` of dep ids whose getters were read while this watcher was the
active target (for a deep watcher the trailing `traverse` reads are part
of that list). -/
def watcherGet (st : RSt) (touched : List Nat) : RSt :=
  cleanupDeps (touched.foldl addDep st)

/-- `Watcher.teardown()`: when still active, `removeSub(this)` on every
held dep (walking `this.deps` from the back) and clear the `active`
flag; a no-op otherwise.  (The removal of the watcher from
`vm._watchers` touches only the component instance's own list and is
outside the modelled dependency state.) -/
def teardown (st : RSt) : RSt :=
  if st.w.active then
    { w := { st.w with active := false }
      deps :=
        st.w.deps.reverse.foldl
          (fun acc did => depRemoveSub acc did st.w.id) st.deps }
  else st

/-- `subs.sort((a, b) => a.id - b.id)` on the snapshotted subscriber
list: a stable ascending sort by watcher id (the ECMAScript sort with
this comparator produces exactly the stable ascending reordering). -/
def sortById (l : List Nat) : List Nat :=
  l.insertionSort (· ≤ ·)

/-- `Dep.notify()`: the order in which the snapshotted subscribers'
`update()` callbacks are invoked.  The snapshot is
`this.subs.slice()`; when `process.env.NODE_ENV !== 'production'`
(`dev = true`) and `config.async` is `false`, the snapshot is first
sorted by ascending watcher id. -/
def notifyOrder (d : DepNode) (dev async : Bool) : List Nat :=
  let subs := d.subs
  if dev && !async then sortById subs else subs

/-- `Dep.notify()` with the subscriber callbacks made explicit: `upd i`
is the state transformer performed by watcher `i`'s `update()` (which
may reentrantly subscribe/unsubscribe, i.e. change any part of the
state).  The iteration list is the snapshot taken from the entry
state. -/
def notifyExec {σ : Type} (upd : Nat → σ → σ) (d : DepNode) (dev async : Bool)
    (s : σ) : σ × List Nat :=
  let order := notifyOrder d dev async
  (order.foldl (fun acc i => upd i acc) s, order)

/-! ### Well-formedness invariant

`WF st` is what holds between evaluations: the scratch fields
`newDepIds`/`newDeps` are empty, `deps` lists exactly the ids in
`depIds` (the code stores `Dep` objects in `deps` and their ids in the
set `depIds`; both receive exactly the same id sequence), dep ids are
unique, no subscriber list has duplicates, and the watcher sits in
exactly the subscriber lists of the deps it holds. -/

def WFdep (w : WatcherSt) (d : DepNode) : Prop :=
  d.subs.Nodup ∧ (w.id ∈ d.subs ↔ d.id ∈ w.depIds)

instance (w : WatcherSt) (d : DepNode) : Decidable (WFdep w d) := by
  unfold WFdep; infer_instance

def WF (st : RSt) : Prop :=
  st.w.newDepIds = [] ∧ st.w.newDeps = [] ∧ st.w.deps = st.w.depIds ∧
  st.w.depIds.Nodup ∧ (st.deps.map DepNode.id).Nodup ∧
  ∀ d ∈ st.deps, WFdep st.w d

instance (st : RSt) : Decidable (WF st) := by
  unfold WF; infer_instance

/-! ### Effect of one evaluation on the dependency graph -/

theorem addDep_w_fixed (st : RSt) (t : Nat) :
    (addDep st t).w.id = st.w.id ∧ (addDep st t).w.depIds = st.w.depIds ∧
    (addDep st t).w.deps = st.w.deps ∧ (addDep st t).w.active = st.w.active := by
  unfold addDep; split <;> exact ⟨rfl, rfl, rfl, rfl⟩

theorem foldl_addDep_w_fixed (T : List Nat) (st : RSt) :
    (T.foldl addDep st).w.id = st.w.id ∧
    (T.foldl addDep st).w.depIds = st.w.depIds ∧
    (T.foldl addDep st).w.deps = st.w.deps ∧
    (T.foldl addDep st).w.active = st.w.active := by
  induction T generalizing st with
  | nil => exact ⟨rfl, rfl, rfl, rfl⟩
  | cons t ts ih =>
    simp only [List.foldl_cons]
    obtain ⟨h1, h2, h3, h4⟩ := ih (addDep st t)
    obtain ⟨g1, g2, g3, g4⟩ := addDep_w_fixed st t
    exact ⟨h1.trans g1, h2.trans g2, h3.trans g3, h4.trans g4⟩

theorem foldl_addDep_newDepIds_mem (T : List Nat) (st : RSt) (x : Nat) :
    x ∈ (T.foldl addDep st).w.newDepIds ↔ x ∈ st.w.newDepIds ∨ x ∈ T := by
  induction T generalizing st with
  | nil => simp
  | cons t ts ih =>
    simp only [List.foldl_cons]
    rw [ih]
    unfold addDep
    by_cases h : t ∈ st.w.newDepIds
    · rw [if_pos h]
      simp only [List.mem_cons]
      constructor
      · rintro (hx | hx)
        · exact Or.inl hx
        · exact Or.inr (Or.inr hx)
      · rintro (hx | hx | hx)
        · exact Or.inl hx
        · exact Or.inl (hx ▸ h)
        · exact Or.inr hx
    · rw [if_neg h]
      simp only [List.mem_append, List.mem_singleton, List.mem_cons]
      tauto

theorem foldl_addDep_newDeps_eq (T : List Nat) (st : RSt)
    (h : st.w.newDeps = st.w.newDepIds) :
    (T.foldl addDep st).w.newDeps = (T.foldl addDep st).w.newDepIds := by
  induction T generalizing st with
  | nil => exact h
  | cons t ts ih =>
    simp only [List.foldl_cons]
    apply ih
    unfold addDep
    split
    · exact h
    · simp only [h]

theorem foldl_addDep_newDepIds_nodup (T : List Nat) (st : RSt)
    (h : st.w.newDepIds.Nodup) :
    (T.foldl addDep st).w.newDepIds.Nodup := by
  induction T generalizing st with
  | nil => exact h
  | cons t ts ih =>
    simp only [List.foldl_cons]
    apply ih
    unfold addDep
    by_cases ht : t ∈ st.w.newDepIds
    · rw [if_pos ht]; exact h
    · rw [if_neg ht]
      refine List.Nodup.append h (List.nodup_singleton t) ?_
      intro a ha hb
      rw [List.mem_singleton] at hb
      subst hb
      exact ht ha

/-- Composite effect of the reads of one evaluation on the dependency
nodes: a dep gains the watcher — once, appended to its subscriber
list — exactly when its id is touched but lies neither in the previous
run's `depIds` nor in the already-accumulated `newDepIds`. -/
theorem foldl_addDep_deps (T : List Nat) (st : RSt) :
    (T.foldl addDep st).deps =
      st.deps.map fun d =>
        if d.id ∈ T ∧ d.id ∉ st.w.newDepIds ∧ d.id ∉ st.w.depIds then
          { d with subs := d.subs ++ [st.w.id] }
        else d := by
  induction T generalizing st with
  | nil => simp
  | cons t ts ih =>
    simp only [List.foldl_cons]
    rw [ih]
    unfold addDep
    by_cases h1 : t ∈ st.w.newDepIds
    · rw [if_pos h1]
      apply List.map_congr_left
      intro d _
      rcases eq_or_ne d.id t with heq | hne
      · simp only [heq]
        simp [h1]
      · simp only [List.mem_cons, hne, false_or]
    · rw [if_neg h1]
      by_cases h2 : t ∈ st.w.depIds
      · rw [if_pos h2]
        apply List.map_congr_left
        intro d _
        rcases eq_or_ne d.id t with heq | hne
        · simp only [heq]
          simp [h2]
        · simp only [List.mem_cons, List.mem_append, List.mem_singleton,
            List.not_mem_nil, hne, false_or, or_false]
      · rw [if_neg h2]
        unfold depAddSub
        rw [List.map_map]
        apply List.map_congr_left
        intro d _
        rcases eq_or_ne d.id t with heq | hne
        · simp only [Function.comp_apply, heq, if_pos rfl]
          simp [h1, h2]
        · simp [Function.comp_apply, hne]

/-- Composite effect of a `removeSub` sweep (as in `cleanupDeps` and
`teardown`): every dep whose id occurs in the walked list `L` (assumed
duplicate-free, as `deps` ids are) and not in the retained set `N` has
the watcher erased from its subscriber list. -/
theorem foldl_removeSub_deps (L N : List Nat) (wid : Nat) (ds : List DepNode)
    (hL : L.Nodup) :
    L.foldl (fun acc did => if did ∈ N then acc else depRemoveSub acc did wid) ds =
      ds.map fun d =>
        if d.id ∈ L ∧ d.id ∉ N then { d with subs := d.subs.erase wid } else d := by
  induction L generalizing ds with
  | nil => simp
  | cons t ts ih =>
    have hts : ts.Nodup := (List.nodup_cons.mp hL).2
    have htm : t ∉ ts := (List.nodup_cons.mp hL).1
    simp only [List.foldl_cons]
    by_cases h : t ∈ N
    · rw [if_pos h, ih _ hts]
      apply List.map_congr_left
      intro d _
      rcases eq_or_ne d.id t with heq | hne
      · simp only [heq]
        simp [h, htm]
      · simp only [List.mem_cons, hne, false_or]
    · rw [if_neg h, ih _ hts]
      unfold depRemoveSub
      rw [List.map_map]
      apply List.map_congr_left
      intro d _
      rcases eq_or_ne d.id t with heq | hne
      · simp only [Function.comp_apply, heq, if_pos rfl]
        simp [h, htm]
      · simp [Function.comp_apply, hne]

/-- Closed form for a full `get()` round of the watcher, from a
well-formed state: a dep's subscriber list gains the watcher (at the
end) when it is touched and was not previously held, loses the watcher
when it was held and is no longer touched, and is unchanged
otherwise. -/
theorem watcherGet_deps_map (st : RSt) (T : List Nat) (hwf : WF st) :
    (watcherGet st T).deps =
      st.deps.map fun d =>
        if d.id ∈ T then
          if d.id ∈ st.w.depIds then d
          else { d with subs := d.subs ++ [st.w.id] }
        else
          if d.id ∈ st.w.depIds then { d with subs := d.subs.erase st.w.id }
          else d := by
  obtain ⟨hni, hnd, hdd, hnodup, hids, hdeps⟩ := hwf
  have hN : ∀ x, x ∈ (T.foldl addDep st).w.newDepIds ↔ x ∈ T := by
    intro x
    rw [foldl_addDep_newDepIds_mem, hni]
    simp
  obtain ⟨hw1, hw2, hw3, hw4⟩ := foldl_addDep_w_fixed T st
  unfold watcherGet cleanupDeps
  simp only [hw1, hw3, hdd]
  rw [foldl_addDep_deps, foldl_removeSub_deps _ _ _ _ (List.nodup_reverse.mpr hnodup),
    List.map_map]
  apply List.map_congr_left
  intro d hd
  simp only [Function.comp_apply, hni, List.not_mem_nil, not_false_iff, true_and]
  by_cases hT : d.id ∈ T <;> by_cases hD : d.id ∈ st.w.depIds <;>
    simp [hT, hD, hN d.id, List.mem_reverse]

theorem watcherGet_w_spec (st : RSt) (T : List Nat) (hwf : WF st) :
    (watcherGet st T).w.id = st.w.id ∧
    (watcherGet st T).w.active = st.w.active ∧
    (watcherGet st T).w.newDepIds = [] ∧
    (watcherGet st T).w.newDeps = [] ∧
    (watcherGet st T).w.deps = (watcherGet st T).w.depIds ∧
    (watcherGet st T).w.depIds.Nodup ∧
    (∀ x, x ∈ (watcherGet st T).w.depIds ↔ x ∈ T) := by
  obtain ⟨hni, hnd, hdd, hnodup, hids, hdeps⟩ := hwf
  obtain ⟨hw1, hw2, hw3, hw4⟩ := foldl_addDep_w_fixed T st
  refine ⟨hw1, hw4, rfl, rfl, ?_, ?_, ?_⟩
  · show (T.foldl addDep st).w.newDeps = (T.foldl addDep st).w.newDepIds
    exact foldl_addDep_newDeps_eq T st (hnd.trans hni.symm)
  · show (T.foldl addDep st).w.newDepIds.Nodup
    exact foldl_addDep_newDepIds_nodup T st (hni ▸ List.nodup_nil)
  · intro x
    show x ∈ (T.foldl addDep st).w.newDepIds ↔ x ∈ T
    rw [foldl_addDep_newDepIds_mem, hni]
    simp

theorem watcherGet_dep_ids_preserved (st : RSt) (T : List Nat) (hwf : WF st) :
    (watcherGet st T).deps.map DepNode.id = st.deps.map DepNode.id := by
  rw [watcherGet_deps_map st T hwf, List.map_map]
  apply List.map_congr_left
  intro d _
  by_cases hT : d.id ∈ T <;> by_cases hD : d.id ∈ st.w.depIds <;>
    simp [hT, hD, Function.comp_apply]

/-- The between-evaluations invariant is preserved by a full `get()`
round, whatever set of dependencies the evaluation touches. -/
theorem watcherGet_WF (st : RSt) (T : List Nat) (hwf : WF st) :
    WF (watcherGet st T) := by
  obtain ⟨hg1, hg2, hg3, hg4, hg5, hg6, hg7⟩ := watcherGet_w_spec st T hwf
  obtain ⟨hni, hnd, hdd, hnodup, hids, hdeps⟩ := hwf
  refine ⟨hg3, hg4, hg5, hg6, ?_, ?_⟩
  · rw [watcherGet_dep_ids_preserved st T ⟨hni, hnd, hdd, hnodup, hids, hdeps⟩]
    exact hids
  · rw [watcherGet_deps_map st T ⟨hni, hnd, hdd, hnodup, hids, hdeps⟩]
    intro d' hd'
    obtain ⟨d, hd, rfl⟩ := List.mem_map.mp hd'
    obtain ⟨hsub, hiff⟩ := hdeps d hd
    by_cases hT : d.id ∈ T <;> by_cases hD : d.id ∈ st.w.depIds
    · rw [if_pos hT, if_pos hD]
      refine ⟨hsub, ?_⟩
      rw [hg1, hg7]
      exact iff_of_true (hiff.mpr hD) hT
    · rw [if_pos hT, if_neg hD]
      refine ⟨?_, ?_⟩
      · refine List.Nodup.append hsub (List.nodup_singleton _) ?_
        intro a ha hb
        rw [List.mem_singleton] at hb
        subst hb
        exact hD (hiff.mp ha)
      · rw [hg1, hg7]
        exact iff_of_true (by simp) hT
    · rw [if_neg hT, if_pos hD]
      refine ⟨hsub.erase _, ?_⟩
      rw [hg1, hg7]
      refine iff_of_false ?_ hT
      rw [hsub.mem_erase_iff]
      simp
    · rw [if_neg hT, if_neg hD]
      refine ⟨hsub, ?_⟩
      rw [hg1, hg7]
      exact iff_of_false (fun h => hD (hiff.mp h)) hT

theorem mem_notifyOrder (d : DepNode) (dev async : Bool) (x : Nat) :
    x ∈ notifyOrder d dev async ↔ x ∈ d.subs := by
  unfold notifyOrder sortById
  split
  · exact (List.perm_insertionSort _ _).mem_iff
  · exact Iff.rfl

/-- **C1**.  After each evaluation via `get()`, the watcher's dependency
bookkeeping reflects exactly the dependency nodes read during that
evaluation (the list `T` of dep ids touched while the watcher was the
active target): the final `depIds` holds exactly the ids in `T`; every
dep whose getter was touched holds the watcher in its subscriber list,
and every dep subscribed in the previous run but not touched any more
has the watcher removed — so a later `notify()` of such a dep (any
build mode, any `config.async` value) invokes the watcher's `update()`
zero times. -/
theorem watcher_get_tracks_exact_deps (st : RSt) (T : List Nat) (hwf : WF st)
    (dev async : Bool) :
    (∀ x, x ∈ (watcherGet st T).w.depIds ↔ x ∈ T) ∧
    ∀ d ∈ (watcherGet st T).deps,
      (st.w.id ∈ d.subs ↔ d.id ∈ T) ∧
      (d.id ∉ T → (notifyOrder d dev async).count st.w.id = 0) := by
  obtain ⟨hg1, hg2, hg3, hg4, hg5, hg6, hg7⟩ := watcherGet_w_spec st T hwf
  refine ⟨hg7, ?_⟩
  obtain ⟨hni, hnd, hdd, hnodup, hids, hdeps⟩ := hwf
  rw [watcherGet_deps_map st T ⟨hni, hnd, hdd, hnodup, hids, hdeps⟩]
  intro d' hd'
  obtain ⟨d, hd, rfl⟩ := List.mem_map.mp hd'
  obtain ⟨hsub, hiff⟩ := hdeps d hd
  by_cases hT : d.id ∈ T <;> by_cases hD : d.id ∈ st.w.depIds
  · rw [if_pos hT, if_pos hD]
    exact ⟨iff_of_true (hiff.mpr hD) hT, fun hc => absurd hT hc⟩
  · rw [if_pos hT, if_neg hD]
    exact ⟨iff_of_true (by simp) hT, fun hc => absurd hT hc⟩
  · rw [if_neg hT, if_pos hD]
    refine ⟨iff_of_false ?_ hT, fun _ => ?_⟩
    · rw [hsub.mem_erase_iff]
      simp
    · rw [List.count_eq_zero, mem_notifyOrder]
      show st.w.id ∉ d.subs.erase st.w.id
      rw [hsub.mem_erase_iff]
      simp
  · rw [if_neg hT, if_neg hD]
    refine ⟨iff_of_false (fun h => hD (hiff.mp h)) hT, fun _ => ?_⟩
    rw [List.count_eq_zero, mem_notifyOrder]
    exact fun h => hD (hiff.mp h)

/-- **C3**.  Every watcher appears at most once in every dep's
subscriber list: `addDep` subscribes only when the dep id is absent
from both the previous (`depIds`) and the current (`newDepIds`)
id-sets, so an evaluation that reads the same property repeatedly
(duplicate ids in `T`), or successive evaluations (the invariant is
re-established after each `get()`), never produce a duplicate
subscription. -/
theorem addDep_at_most_once (st : RSt) (T : List Nat) (hwf : WF st) :
    (∀ d ∈ (watcherGet st T).deps, ∀ x, d.subs.count x ≤ 1) ∧
    WF (watcherGet st T) := by
  refine ⟨?_, watcherGet_WF st T hwf⟩
  intro d hd x
  have hnd := ((watcherGet_WF st T hwf).2.2.2.2.2 d hd).1
  exact List.nodup_iff_count_le_one.mp hnd x

/-- Composite effect of `teardown`'s unconditional `removeSub` sweep
over the held dependency list. -/
theorem foldl_removeSubAll_deps (L : List Nat) (wid : Nat) (ds : List DepNode)
    (hL : L.Nodup) :
    L.foldl (fun acc did => depRemoveSub acc did wid) ds =
      ds.map fun d => if d.id ∈ L then { d with subs := d.subs.erase wid } else d := by
  induction L generalizing ds with
  | nil => simp
  | cons t ts ih =>
    have hts : ts.Nodup := (List.nodup_cons.mp hL).2
    have htm : t ∉ ts := (List.nodup_cons.mp hL).1
    simp only [List.foldl_cons]
    rw [ih _ hts]
    unfold depRemoveSub
    rw [List.map_map]
    apply List.map_congr_left
    intro d _
    rcases eq_or_ne d.id t with heq | hne
    · simp only [Function.comp_apply, heq, if_pos rfl]
      simp [htm]
    · simp [Function.comp_apply, hne]

/-- **C8**.  `teardown()` on an active watcher removes it from the
subscriber list of every dependency node and marks it inactive; a
subsequent `notify()` of any former dependency (any build mode) invokes
it zero times, and a second `teardown()` changes nothing. -/
theorem teardown_spec (st : RSt) (hwf : WF st) (ha : st.w.active = true)
    (dev async : Bool) :
    (∀ d ∈ (teardown st).deps,
        st.w.id ∉ d.subs ∧ (notifyOrder d dev async).count st.w.id = 0) ∧
    (teardown st).w.active = false ∧
    teardown (teardown st) = teardown st := by
  obtain ⟨hni, hnd, hdd, hnodup, hids, hdeps⟩ := hwf
  have hteq : teardown st =
      RSt.mk { st.w with active := false }
        (st.deps.map fun d =>
          if d.id ∈ st.w.deps.reverse then { d with subs := d.subs.erase st.w.id }
          else d) := by
    unfold teardown
    rw [if_pos ha,
      foldl_removeSubAll_deps _ _ _ (by rw [hdd]; exact List.nodup_reverse.mpr hnodup)]
  refine ⟨?_, ?_, ?_⟩
  · rw [hteq]
    intro d' hd'
    obtain ⟨d, hd, rfl⟩ := List.mem_map.mp hd'
    obtain ⟨hsub, hiff⟩ := hdeps d hd
    by_cases hD : d.id ∈ st.w.deps.reverse
    · rw [if_pos hD]
      constructor
      · rw [hsub.mem_erase_iff]
        simp
      · rw [List.count_eq_zero, mem_notifyOrder]
        show st.w.id ∉ d.subs.erase st.w.id
        rw [hsub.mem_erase_iff]
        simp
    · rw [if_neg hD]
      have hnd' : d.id ∉ st.w.depIds := fun h =>
        hD (by rw [hdd]; exact List.mem_reverse.mpr h)
      constructor
      · exact fun h => hnd' (hiff.mp h)
      · rw [List.count_eq_zero, mem_notifyOrder]
        exact fun h => hnd' (hiff.mp h)
  · rw [hteq]
  · rw [hteq]
    unfold teardown
    simp

/-- **C4 counterexample**: in a production build
(`process.env.NODE_ENV === 'production'`, first argument `false`),
`notify()` with async batching disabled (`config.async = false`, second
argument) does not sort the snapshot: a dep whose accumulated
subscription order is `[2, 1]` invokes watcher 2 before watcher 1,
which is not ascending watcher-id order. -/
theorem dep_notify_order_counterexample :
    notifyOrder ⟨5, [2, 1]⟩ false false = [2, 1] ∧
    ¬ (notifyOrder ⟨5, [2, 1]⟩ false false).Sorted (· ≤ ·) :=
  ⟨rfl, by decide⟩

/-- **C4 (amended)**.  `notify()` always iterates over a defensive
snapshot of the subscriber list taken on entry — the invoked id
sequence is fixed before the callbacks run, so reentrant
subscribe/unsubscribe by a callback cannot affect the current pass —
and in a non-production build with async batching disabled the snapshot
is additionally sorted, so the update callbacks run in ascending
watcher-id (creation) order over exactly the snapshotted subscribers;
in production builds the snapshot is invoked in stored subscription
order. -/
theorem dep_notify_snapshot_and_order (d : DepNode) {σ : Type}
    (upd : Nat → σ → σ) (s : σ) :
    (notifyOrder d true false).Sorted (· ≤ ·) ∧
    (notifyOrder d true false).Perm d.subs ∧
    (notifyExec upd d true false s).2 = notifyOrder d true false ∧
    (∀ b, notifyOrder d false b = d.subs) := by
  refine ⟨?_, ?_, rfl, fun b => rfl⟩
  · show (sortById d.subs).Sorted (· ≤ ·)
    exact List.sorted_insertionSort _ _
  · show (sortById d.subs).Perm d.subs
    exact List.perm_insertionSort _ _

/-! ### Concrete witness states -/

/-- Example watcher 1, currently holding dep 10. -/
def exW : WatcherSt := ⟨1, [10], [], [10], [], true⟩

/-- Example dependency graph: dep 10 (subscribed by watcher 1) and
dep 11 (no subscribers). -/
def exDeps : List DepNode := [⟨10, [1]⟩, ⟨11, []⟩]

/-- Example well-formed reactive state. -/
def exRSt : RSt := ⟨exW, exDeps⟩

theorem watcher_get_tracks_exact_deps_witness :
    WF exRSt ∧
    ((10 : Nat) ∈ (watcherGet exRSt [11]).w.depIds ↔ (10 : Nat) ∈ [11]) ∧
    ((exRSt.w.id ∈ (DepNode.mk 10 []).subs ↔ (10 : Nat) ∈ [11]) ∧
      ((10 : Nat) ∉ [11] →
        (notifyOrder ⟨10, []⟩ false false).count exRSt.w.id = 0)) :=
  ⟨by decide,
   (watcher_get_tracks_exact_deps exRSt [11] (by decide) false false).1 10,
   (watcher_get_tracks_exact_deps exRSt [11] (by decide) false false).2
     ⟨10, []⟩ (by decide)⟩

theorem addDep_at_most_once_witness :
    WF exRSt ∧ (DepNode.mk 10 [1]).subs.count 1 ≤ 1 ∧
    WF (watcherGet exRSt [10, 10, 11]) :=
  ⟨by decide,
   (addDep_at_most_once exRSt [10, 10, 11] (by decide)).1 ⟨10, [1]⟩ (by decide) 1,
   (addDep_at_most_once exRSt [10, 10, 11] (by decide)).2⟩

theorem teardown_spec_witness :
    (WF exRSt ∧ exRSt.w.active = true) ∧
    (exRSt.w.id ∉ (DepNode.mk 10 []).subs ∧
      (notifyOrder ⟨10, []⟩ true false).count exRSt.w.id = 0) ∧
    (teardown exRSt).w.active = false ∧
    teardown (teardown exRSt) = teardown exRSt :=
  ⟨⟨by decide, by decide⟩,
   (teardown_spec exRSt (by decide) (by decide) true false).1 ⟨10, []⟩ (by decide),
   (teardown_spec exRSt (by decide) (by decide) true false).2.1,
   (teardown_spec exRSt (by decide) (by decide) true false).2.2⟩

/-! ## The reactive property binder (`defineReactive`,
`src/core/observer/index.js`)

Only the setter closure is embedded here (the getter's dependency
registration is covered by the watcher model above). -/

/-- JS values as handled by the reactive setter.  Objects and arrays
are identified by reference id (JS `===` on them is reference
identity); `nan` models any value `x` with `x !== x`. -/
inductive Val where
  | undef
  | prim (n : Int)
  | nan
  | str (s : String)
  | obj (ref : Nat)
  | arr (ref : Nat)
  deriving Repr, DecidableEq

/-- JS `===` on modelled values: `NaN === NaN` is false; everything
else compares by identity. -/
def jsEq (a b : Val) : Bool :=
  match a, b with
  | .nan, _ => false
  | _, .nan => false
  | a, b => a = b

/-- JS `x !== x`, the self-inequality used by the setter's NaN check. -/
def jsSelfNeq (v : Val) : Bool :=
  !(jsEq v v)

/-- The closure state of one property made reactive by `defineReactive`
plus instrumentation of its observable effects.  `getter`/`hasSetter`
model a pre-existing accessor pair captured from the property
descriptor (`property.get` / `property.set`); a pre-existing getter is
modelled as a pure function returning a fixed value.  `shallow` is
`defineReactive`'s fifth argument, `hasCustomSetter` its fourth (a
dev-only warning hook), `dev` the build mode.  `observedVals` logs the
argument of each `observe` call made by the setter, `setterCalls` the
values forwarded to a pre-existing setter, `customSetterCalls` counts
warning-hook invocations, `notifyCount` counts `dep.notify()` calls. -/
structure PropSt where
  val : Val
  getter : Option Val
  hasSetter : Bool
  shallow : Bool
  hasCustomSetter : Bool
  dev : Bool
  observedVals : List Val
  setterCalls : List Val
  customSetterCalls : Nat
  notifyCount : Nat
  deriving Repr, DecidableEq

/-- `reactiveSetter(newVal)`:
`const value = getter ? getter.call(obj) : val`; return if
`newVal === value || (newVal !== newVal && value !== value)`; invoke
the dev-mode custom setter; return if the property had a getter but no
setter (#7981); store through the original setter or into the closure
`val`; `childOb = !shallow && observe(newVal)`; `dep.notify()`. -/
def reactiveSetter (st : PropSt) (newVal : Val) : PropSt :=
  let value :=
    match st.getter with
    | some g => g
    | none => st.val
  if jsEq newVal value || (jsSelfNeq newVal && jsSelfNeq value) then st
  else
    let st1 :=
      if st.dev && st.hasCustomSetter then
        { st with customSetterCalls := st.customSetterCalls + 1 }
      else st
    if st1.getter.isSome && !st1.hasSetter then st1
    else
      let st2 :=
        if st1.hasSetter then { st1 with setterCalls := st1.setterCalls ++ [newVal] }
        else { st1 with val := newVal }
      let st3 :=
        if !st2.shallow then { st2 with observedVals := st2.observedVals ++ [newVal] }
        else st2
      { st3 with notifyCount := st3.notifyCount + 1 }

/-- **C2 counterexample**: two reactive properties on which the claim
fails.  (a) A property whose original descriptor had a getter but no
setter (`defineReactive` wraps such accessors, spec §4.2): assigning
`5` when the getter yields `1` passes the change check, yet the write
is dropped — nothing stored and `notify()` runs zero times, not exactly
once.  (b) A property defined with `shallow = true`: assigning a fresh
object stores it and notifies once, but `observe` is not re-run on it. -/
theorem reactive_setter_counterexample :
    (jsEq (Val.prim 5) (Val.prim 1) = false ∧
     reactiveSetter
        ⟨Val.prim 0, some (Val.prim 1), false, false, false, false, [], [], 0, 0⟩
        (Val.prim 5) =
      ⟨Val.prim 0, some (Val.prim 1), false, false, false, false, [], [], 0, 0⟩) ∧
    (jsEq (Val.obj 7) (Val.prim 1) = false ∧
     (reactiveSetter
        ⟨Val.prim 1, none, false, true, false, false, [], [], 0, 0⟩
        (Val.obj 7)).observedVals = []) :=
  ⟨⟨rfl, by decide⟩, ⟨rfl, by decide⟩⟩

/-- **C2 (amended)**.  For every plain data property (original
descriptor had neither getter nor setter) made reactive by
`defineReactive`: assigning a value identical (`===`) to the current
value, or where new and current values are both NaN-like, leaves the
entire property state unchanged (in particular zero `notify()` calls
and no `observe`); assigning any other value stores the new value,
re-runs `observe` on it when the property is not shallow, and calls the
property's dep `notify()` exactly once.  (Properties wrapped around a
pre-existing getter-only accessor instead drop the write entirely —
see C9.) -/
theorem reactive_setter_spec (st : PropSt) (newVal : Val)
    (hget : st.getter = none) (hset : st.hasSetter = false) :
    ((jsEq newVal st.val || (jsSelfNeq newVal && jsSelfNeq st.val)) = true →
        reactiveSetter st newVal = st) ∧
    ((jsEq newVal st.val || (jsSelfNeq newVal && jsSelfNeq st.val)) = false →
        (reactiveSetter st newVal).val = newVal ∧
        (reactiveSetter st newVal).observedVals =
          (if st.shallow then st.observedVals else st.observedVals ++ [newVal]) ∧
        (reactiveSetter st newVal).notifyCount = st.notifyCount + 1) := by
  constructor
  · intro hchg
    unfold reactiveSetter
    rw [hget]
    simp [hchg]
  · intro hchg
    by_cases hdev : st.dev && st.hasCustomSetter <;> by_cases hsh : st.shallow <;>
      simp [reactiveSetter, hget, hset, hchg, hdev, hsh]

theorem reactive_setter_spec_witness :
    ((⟨Val.prim 1, none, false, false, false, false, [], [], 0, 0⟩ : PropSt).getter
        = none ∧
     (⟨Val.prim 1, none, false, false, false, false, [], [], 0, 0⟩ : PropSt).hasSetter
        = false) ∧
    ((jsEq (Val.prim 1) (Val.prim 1) || (jsSelfNeq (Val.prim 1) &&
        jsSelfNeq (Val.prim 1))) = true →
      reactiveSetter ⟨Val.prim 1, none, false, false, false, false, [], [], 0, 0⟩
          (Val.prim 1) =
        ⟨Val.prim 1, none, false, false, false, false, [], [], 0, 0⟩) ∧
    ((jsEq (Val.prim 1) (Val.prim 1) || (jsSelfNeq (Val.prim 1) &&
        jsSelfNeq (Val.prim 1))) = false →
      (reactiveSetter ⟨Val.prim 1, none, false, false, false, false, [], [], 0, 0⟩
          (Val.prim 1)).val = Val.prim 1 ∧
      (reactiveSetter ⟨Val.prim 1, none, false, false, false, false, [], [], 0, 0⟩
          (Val.prim 1)).observedVals =
        (if (⟨Val.prim 1, none, false, false, false, false, [], [], 0, 0⟩ : PropSt).shallow
          then [] else [] ++ [Val.prim 1]) ∧
      (reactiveSetter ⟨Val.prim 1, none, false, false, false, false, [], [], 0, 0⟩
          (Val.prim 1)).notifyCount = 0 + 1) :=
  ⟨⟨rfl, rfl⟩,
   reactive_setter_spec ⟨Val.prim 1, none, false, false, false, false, [], [], 0, 0⟩
     (Val.prim 1) rfl rfl⟩

/-- **C9**.  If `defineReactive` wrapped a property that originally had
a getter but no setter, every assignment that passes the change check
(the new value differs from the getter's value and they are not both
NaN-like) returns before the store (#7981): the closure value is not
overwritten, no `observe` is run on the new value, no original setter
is invoked, and `notify()` is not called.  (Only the dev-mode warning
hook, a diagnostic, may fire before the early return.) -/
theorem reactive_setter_getter_no_setter_drops (st : PropSt) (newVal g : Val)
    (hget : st.getter = some g) (hset : st.hasSetter = false)
    (hchg : (jsEq newVal g || (jsSelfNeq newVal && jsSelfNeq g)) = false) :
    (reactiveSetter st newVal).val = st.val ∧
    (reactiveSetter st newVal).observedVals = st.observedVals ∧
    (reactiveSetter st newVal).setterCalls = st.setterCalls ∧
    (reactiveSetter st newVal).notifyCount = st.notifyCount := by
  by_cases hdev : st.dev && st.hasCustomSetter <;>
    simp [reactiveSetter, hget, hset, hchg, hdev]

theorem reactive_setter_getter_no_setter_drops_witness :
    ((⟨Val.prim 0, some (Val.prim 1), false, false, true, true, [], [], 0, 0⟩ :
        PropSt).getter = some (Val.prim 1) ∧
     (⟨Val.prim 0, some (Val.prim 1), false, false, true, true, [], [], 0, 0⟩ :
        PropSt).hasSetter = false ∧
     (jsEq (Val.prim 5) (Val.prim 1) ||
        (jsSelfNeq (Val.prim 5) && jsSelfNeq (Val.prim 1))) = false) ∧
    ((reactiveSetter
        ⟨Val.prim 0, some (Val.prim 1), false, false, true, true, [], [], 0, 0⟩
        (Val.prim 5)).val = Val.prim 0 ∧
     (reactiveSetter
        ⟨Val.prim 0, some (Val.prim 1), false, false, true, true, [], [], 0, 0⟩
        (Val.prim 5)).observedVals = [] ∧
     (reactiveSetter
        ⟨Val.prim 0, some (Val.prim 1), false, false, true, true, [], [], 0, 0⟩
        (Val.prim 5)).setterCalls = [] ∧
     (reactiveSetter
        ⟨Val.prim 0, some (Val.prim 1), false, false, true, true, [], [], 0, 0⟩
        (Val.prim 5)).notifyCount = 0) :=
  ⟨⟨rfl, rfl, rfl⟩,
   reactive_setter_getter_no_setter_drops
     ⟨Val.prim 0, some (Val.prim 1), false, false, true, true, [], [], 0, 0⟩
     (Val.prim 5) (Val.prim 1) rfl rfl rfl⟩

/-! ## The array method interceptor (`src/core/observer/array.js`) -/

/-- One invocation of an intercepted mutating array method, with its
arguments.  For `splice`, `start` is `args[0]`, `deleteCount` is
`args[1]` (`none` when the call omitted it) and `items` is
`args.slice(2)`. -/
inductive ArrOp where
  | push (items : List Val)
  | pop
  | shift
  | unshift (items : List Val)
  | splice (start : Int) (deleteCount : Option Int) (items : List Val)
  | sort
  | reverse
  deriving Repr, DecidableEq

/-- Return value of an original `Array.prototype` method. -/
inductive ArrRet where
  | len (n : Nat)
  | elem (v : Option Val)
  | removed (vs : List Val)
  | self (vs : List Val)
  deriving Repr, DecidableEq

/-- ECMAScript `Array.prototype.splice`: clamp the start index and the
deletion count, remove, and insert.  Returns (resulting array, removed
elements). -/
def jsSplice (arr : List Val) (start : Int) (deleteCount : Option Int)
    (items : List Val) : List Val × List Val :=
  let len := arr.length
  let s : Nat := if start < 0 then ((len : Int) + start).toNat else min start.toNat len
  let dc : Nat :=
    match deleteCount with
    | none => len - s
    | some k => min (max k 0).toNat (len - s)
  (arr.take s ++ items ++ arr.drop (s + dc), (arr.drop s).take dc)

/-- String conversion used by the host's default sort comparator
(`Array.prototype.sort` without a comparator orders by string value).
Nested containers are tracked only by reference id in this model, so
their stringification is approximated by constants; the interceptor
under verification is independent of the comparator. -/
def jsToString : Val → String
  | .undef => ""
  | .prim n => toString n
  | .nan => "NaN"
  | .str s => s
  | .obj _ => "[object Object]"
  | .arr _ => ""

/-- The host's default sort: `undefined` elements go to the end, the
rest are stably sorted by string value. -/
def jsSortVals (a : List Val) : List Val :=
  (a.filter (fun v => v ≠ .undef)).insertionSort
      (fun x y => jsToString x ≤ jsToString y) ++
    a.filter (fun v => v = .undef)

/-- The cached original `Array.prototype` methods
(`const original = arrayProto[method]`), as functions from the array to
(mutated array, return value). -/
def arrayProtoApply : ArrOp → List Val → List Val × ArrRet
  | .push items, a => (a ++ items, .len (a ++ items).length)
  | .pop, a => (a.dropLast, .elem a.getLast?)
  | .shift, a => (a.tail, .elem a.head?)
  | .unshift items, a => (items ++ a, .len (items ++ a).length)
  | .splice s dc items, a =>
      ((jsSplice a s dc items).1, .removed (jsSplice a s dc items).2)
  | .sort, a => (jsSortVals a, .self (jsSortVals a))
  | .reverse, a => (a.reverse, .self a.reverse)

/-- An observed array: its contents, the log of `observe` calls made by
`ob.observeArray`, and the count of `ob.dep.notify()` calls. -/
structure ObsArr where
  arr : List Val
  observedVals : List Val
  notifyCount : Nat
  deriving Repr, DecidableEq

/-- The `mutator` wrapper installed over each of the seven methods:
`const result = original.apply(this, args)`; `inserted` is `args` for
`push`/`unshift` and `args.slice(2)` for `splice` (left undefined
otherwise); `if (inserted) ob.observeArray(inserted)`;
`ob.dep.notify()`; `return result`. -/
def mutator (st : ObsArr) (op : ArrOp) : ObsArr × ArrRet :=
  let result := (arrayProtoApply op st.arr).2
  let arr1 := (arrayProtoApply op st.arr).1
  let inserted : Option (List Val) :=
    match op with
    | .push items => some items
    | .unshift items => some items
    | .splice _ _ items => some items
    | _ => none
  let st1 := { st with arr := arr1 }
  let st2 :=
    match inserted with
    | some ins => { st1 with observedVals := st1.observedVals ++ ins }
    | none => st1
  ({ st2 with notifyCount := st2.notifyCount + 1 }, result)

/-- The elements the claim designates as newly inserted: all arguments
for `push` and `unshift`, the arguments from index 2 onward for
`splice`, none for the others. -/
def insertedOf : ArrOp → List Val
  | .push items => items
  | .unshift items => items
  | .splice _ _ items => items
  | _ => []

/-- **C5**.  Each intercepted method invocation applies the original
`Array.prototype` method to the array (push appends and returns the new
length, pop removes and returns the last element, shift the first,
unshift prepends and returns the new length, splice replaces the
clamped range returning the removed elements, sort/reverse reorder in
place and return the array), runs the observer-attach step exactly on
the newly inserted elements, notifies the array's own dep exactly once,
and returns the original method's result. -/
theorem array_mutator_spec (st : ObsArr) (op : ArrOp) :
    (mutator st op).1.arr = (arrayProtoApply op st.arr).1 ∧
    (mutator st op).2 = (arrayProtoApply op st.arr).2 ∧
    ((∀ items, op = .push items →
        (mutator st op).1.arr = st.arr ++ items ∧
        (mutator st op).2 = .len (st.arr ++ items).length) ∧
     (op = .pop →
        (mutator st op).1.arr = st.arr.dropLast ∧
        (mutator st op).2 = .elem st.arr.getLast?) ∧
     (op = .shift →
        (mutator st op).1.arr = st.arr.tail ∧
        (mutator st op).2 = .elem st.arr.head?) ∧
     (∀ items, op = .unshift items →
        (mutator st op).1.arr = items ++ st.arr ∧
        (mutator st op).2 = .len (items ++ st.arr).length) ∧
     (∀ s dc items, op = .splice s dc items →
        (mutator st op).1.arr = (jsSplice st.arr s dc items).1 ∧
        (mutator st op).2 = .removed (jsSplice st.arr s dc items).2) ∧
     (op = .reverse →
        (mutator st op).1.arr = st.arr.reverse ∧
        (mutator st op).2 = .self st.arr.reverse)) ∧
    (mutator st op).1.observedVals = st.observedVals ++ insertedOf op ∧
    (mutator st op).1.notifyCount = st.notifyCount + 1 := by
  cases op <;> simp [mutator, arrayProtoApply, insertedOf]

/-! ## The virtual-DOM node model (`src/core/vdom/vnode.js`) and the
same-node test (`src/core/vdom/patch.js`)

JS object references are modelled by a numeric identity tag `nid`:
distinct objects carry distinct `nid`s (fresh ones are allocated by the
patch state for clones and the like), so JS `===` on vnodes is `nid`
equality.  `componentInstance` is modelled as the component instance's
root vnode (`instance._vnode`); the only instance fields the reconciler
reads (`$el`, `_vnode`) are derived from it. -/

structure AsyncFactory where
  fid : Nat
  error : Bool
  resolved : Bool
  deriving Repr, DecidableEq

inductive KVal where
  | str (s : String)
  | num (n : Int)
  deriving Repr, DecidableEq

/-- The `VNodeData` fields read by the modelled reconciler: the
presence of the `attrs` object together with its `type` attribute
(`attrs : none` = no attrs object; `attrs : some none` = attrs without
`type`), the presence of each `data.hook` entry, `keepAlive`, and
`transition`. -/
structure VData where
  attrs : Option (Option String)
  hookInit : Bool
  hookCreate : Bool
  hookPrepatch : Bool
  hookUpdate : Bool
  hookPostpatch : Bool
  hookInsert : Bool
  hookDestroy : Bool
  hookRemove : Bool
  keepAlive : Bool
  transition : Bool
  deriving Repr, DecidableEq

/-- A no-hooks, no-attrs `VNodeData`. -/
def VData.empty : VData :=
  ⟨none, false, false, false, false, false, false, false, false, false, false⟩

/-- The `VNode` fields used by the reconciler, in the order:
`nid, tag, data, children, text, elm, ns, context, fnContext,
fnScopeId, key, componentInstance, parent, isStatic, isRootInsert,
isComment, isCloned, isOnce, asyncFactory, isAsyncPlaceholder`.
(A structure cannot be recursive, hence the single-constructor
inductive with explicit projections below.) -/
inductive VNode where
  | mk
    (nid : Nat)
    (tag : Option String)
    (data : Option VData)
    (children : Option (List VNode))
    (text : Option String)
    (elm : Option Nat)
    (ns : Option String)
    (context : Option Nat)
    (fnContext : Option Nat)
    (fnScopeId : Option String)
    (key : Option KVal)
    (componentInstance : Option VNode)
    (parent : Option VNode)
    (isStatic : Bool)
    (isRootInsert : Bool)
    (isComment : Bool)
    (isCloned : Bool)
    (isOnce : Bool)
    (asyncFactory : Option AsyncFactory)
    (isAsyncPlaceholder : Bool)
  deriving Repr

def VNode.nid : VNode → Nat
  | .mk n _ _ _ _ _ _ _ _ _ _ _ _ _ _ _ _ _ _ _ => n

def VNode.tag : VNode → Option String
  | .mk _ t _ _ _ _ _ _ _ _ _ _ _ _ _ _ _ _ _ _ => t

def VNode.data : VNode → Option VData
  | .mk _ _ d _ _ _ _ _ _ _ _ _ _ _ _ _ _ _ _ _ => d

def VNode.children : VNode → Option (List VNode)
  | .mk _ _ _ c _ _ _ _ _ _ _ _ _ _ _ _ _ _ _ _ => c

def VNode.text : VNode → Option String
  | .mk _ _ _ _ t _ _ _ _ _ _ _ _ _ _ _ _ _ _ _ => t

def VNode.elm : VNode → Option Nat
  | .mk _ _ _ _ _ e _ _ _ _ _ _ _ _ _ _ _ _ _ _ => e

def VNode.ns : VNode → Option String
  | .mk _ _ _ _ _ _ n _ _ _ _ _ _ _ _ _ _ _ _ _ => n

def VNode.context : VNode → Option Nat
  | .mk _ _ _ _ _ _ _ c _ _ _ _ _ _ _ _ _ _ _ _ => c

def VNode.fnContext : VNode → Option Nat
  | .mk _ _ _ _ _ _ _ _ f _ _ _ _ _ _ _ _ _ _ _ => f

def VNode.fnScopeId : VNode → Option String
  | .mk _ _ _ _ _ _ _ _ _ s _ _ _ _ _ _ _ _ _ _ => s

def VNode.key : VNode → Option KVal
  | .mk _ _ _ _ _ _ _ _ _ _ k _ _ _ _ _ _ _ _ _ => k

def VNode.componentInstance : VNode → Option VNode
  | .mk _ _ _ _ _ _ _ _ _ _ _ ci _ _ _ _ _ _ _ _ => ci

def VNode.parent : VNode → Option VNode
  | .mk _ _ _ _ _ _ _ _ _ _ _ _ p _ _ _ _ _ _ _ => p

def VNode.isStatic : VNode → Bool
  | .mk _ _ _ _ _ _ _ _ _ _ _ _ _ s _ _ _ _ _ _ => s

def VNode.isRootInsert : VNode → Bool
  | .mk _ _ _ _ _ _ _ _ _ _ _ _ _ _ r _ _ _ _ _ => r

def VNode.isComment : VNode → Bool
  | .mk _ _ _ _ _ _ _ _ _ _ _ _ _ _ _ c _ _ _ _ => c

def VNode.isCloned : VNode → Bool
  | .mk _ _ _ _ _ _ _ _ _ _ _ _ _ _ _ _ c _ _ _ => c

def VNode.isOnce : VNode → Bool
  | .mk _ _ _ _ _ _ _ _ _ _ _ _ _ _ _ _ _ o _ _ => o

def VNode.asyncFactory : VNode → Option AsyncFactory
  | .mk _ _ _ _ _ _ _ _ _ _ _ _ _ _ _ _ _ _ a _ => a

def VNode.isAsyncPlaceholder : VNode → Bool
  | .mk _ _ _ _ _ _ _ _ _ _ _ _ _ _ _ _ _ _ _ p => p

def VNode.setElm : VNode → Option Nat → VNode
  | .mk n t d c x _ ns cx f fs k ci p s r cm cl o a ap, e =>
    .mk n t d c x e ns cx f fs k ci p s r cm cl o a ap

def VNode.setChildren : VNode → Option (List VNode) → VNode
  | .mk n t d _ x e ns cx f fs k ci p s r cm cl o a ap, c =>
    .mk n t d c x e ns cx f fs k ci p s r cm cl o a ap

def VNode.setIsRootInsert : VNode → Bool → VNode
  | .mk n t d c x e ns cx f fs k ci p s _ cm cl o a ap, r =>
    .mk n t d c x e ns cx f fs k ci p s r cm cl o a ap

def VNode.setIsAsyncPlaceholder : VNode → Bool → VNode
  | .mk n t d c x e ns cx f fs k ci p s r cm cl o a _, ap =>
    .mk n t d c x e ns cx f fs k ci p s r cm cl o a ap

def VNode.setComponentInstance : VNode → Option VNode → VNode
  | .mk n t d c x e ns cx f fs k _ p s r cm cl o a ap, ci =>
    .mk n t d c x e ns cx f fs k ci p s r cm cl o a ap

/-- `cloneVNode` (`vnode.js`): a fresh node (fresh identity `newNid`)
copying the scalar fields, slicing the children list (a copied list is
implicit in the functional model), resetting the constructor-default
fields (`componentInstance`, `parent`, `isRootInsert`,
`isAsyncPlaceholder`) like `new VNode(...)` does, carrying over `ns`,
`isStatic`, `key`, `isComment`, `fnContext`, `fnScopeId` and
`asyncMeta`-like metadata, and marking the result `isCloned`. -/
def cloneVNode (v : VNode) (newNid : Nat) : VNode :=
  .mk newNid v.tag v.data v.children v.text v.elm v.ns v.context v.fnContext
    v.fnScopeId v.key none none v.isStatic true v.isComment true v.isOnce
    v.asyncFactory false

/-- The JS value of `isDef(i = v.data) && isDef(i = i.attrs) && i.type`:
`false` when data or attrs is missing, otherwise the `type` attribute
(possibly `undefined`). -/
inductive TypeAttr where
  | fls
  | undef
  | str (s : String)
  deriving Repr, DecidableEq

def inputTypeOf (v : VNode) : TypeAttr :=
  match v.data with
  | none => .fls
  | some d =>
    match d.attrs with
    | none => .fls
    | some none => .undef
    | some (some s) => .str s

/-- Modelled from the spec: `isTextInputType` (defined in
`web/util/element`, which is not under `src/`) — the class of text-like
`<input>` types the reconciler treats as mutually compatible when
matching input elements (§4.7's input-type attribute comparison). -/
def isTextInputType : TypeAttr → Bool
  | .str s => s ∈ ["text", "number", "password", "search", "email", "tel", "url"]
  | _ => false

/-- `sameInputType(a, b)`: vacuously true unless `a` is an `<input>`;
otherwise the two `type` attributes must be identical or both be
text-like. -/
def sameInputType (a b : VNode) : Bool :=
  if a.tag ≠ some "input" then true
  else
    inputTypeOf a == inputTypeOf b ||
      (isTextInputType (inputTypeOf a) && isTextInputType (inputTypeOf b))

/-- `sameVnode(a, b)`: same `key`, identical `asyncFactory`, and either
structurally compatible descriptions (same tag, same comment flag, both
or neither carrying data, compatible input type) or `a` is an async
placeholder whose factory has not errored
(`isTrue(a.isAsyncPlaceholder) && isUndef(b.asyncFactory.error)`).
When `a.isAsyncPlaceholder` holds but `b.asyncFactory` is absent the
source would fault reading `.error` of `undefined`; that input cannot
arise (a placeholder's factory is defined and equal to `b`'s by the
second conjunct) and is modelled as `false`. -/
def sameVnode (a b : VNode) : Bool :=
  a.key == b.key &&
  a.asyncFactory == b.asyncFactory &&
  ((a.tag == b.tag &&
    a.isComment == b.isComment &&
    a.data.isSome == b.data.isSome &&
    sameInputType a b) ||
   (a.isAsyncPlaceholder &&
    (match b.asyncFactory with
     | some f => !f.error
     | none => false)))

/-- The claim's reading of the same-node test, its final clause taken
literally: "both are async-placeholder nodes in compatible states" —
both nodes flagged as async placeholders, with the shared factory not
in the error state. -/
def sameVnodeClaim (a b : VNode) : Bool :=
  a.key == b.key &&
  a.asyncFactory == b.asyncFactory &&
  ((a.tag == b.tag &&
    a.isComment == b.isComment &&
    a.data.isSome == b.data.isSome &&
    sameInputType a b) ||
   (a.isAsyncPlaceholder && b.isAsyncPlaceholder &&
    (match b.asyncFactory with
     | some f => !f.error
     | none => false)))

/-- An unresolved async factory shared by the counterexample nodes. -/
def exFactory : AsyncFactory := ⟨42, false, false⟩

/-- The async placeholder rendered for `exFactory` while unresolved: a
comment node flagged `isAsyncPlaceholder`. -/
def exPlaceholder : VNode :=
  .mk 100 none none none (some "") none none none none none none none none
    false true true false false (some exFactory) true

/-- The next render's vnode for the same factory before patch flags it:
an element node carrying the factory with `isAsyncPlaceholder` still
false (patch sets the flag only afterwards, `patch.js` line 763). -/
def exNextRender : VNode :=
  .mk 101 (some "div") (some VData.empty) none none none none none none none
    none none none false true false false false (some exFactory) false

/-- **C6 counterexample**: `sameVnode` accepts a pair where only `a` is
an async placeholder — `b` is a plain element vnode sharing the
not-yet-errored factory, its placeholder flag not set — while the
claim's "both are async-placeholder nodes" reading rejects it. -/
theorem sameVnode_counterexample :
    sameVnode exPlaceholder exNextRender = true ∧
    sameVnodeClaim exPlaceholder exNextRender = false ∧
    exPlaceholder.isAsyncPlaceholder = true ∧
    exNextRender.isAsyncPlaceholder = false :=
  ⟨rfl, rfl, rfl, rfl⟩

/-- **C6 (amended)**.  `sameVnode(a, b)` returns true iff `a.key`
equals `b.key`, `a.asyncFactory` is identical to `b.asyncFactory`, and
either (same tag, same `isComment` flag, same definedness of `data`,
and — when the tag is `input` — matching input type attributes) or `a`
is an async-placeholder node and `b`'s async factory has not errored.
(Stated for inputs where a placeholder `a` comes with a defined
`b.asyncFactory`; otherwise the source faults.) -/
theorem sameVnode_spec (a b : VNode)
    (hwf : a.isAsyncPlaceholder = true → (b.asyncFactory).isSome) :
    sameVnode a b = true ↔
      (a.key = b.key ∧ a.asyncFactory = b.asyncFactory ∧
        ((a.tag = b.tag ∧ a.isComment = b.isComment ∧
          a.data.isSome = b.data.isSome ∧ sameInputType a b = true) ∨
         (a.isAsyncPlaceholder = true ∧
          ∃ f, b.asyncFactory = some f ∧ f.error = false))) := by
  unfold sameVnode
  cases hbf : b.asyncFactory with
  | none =>
    by_cases hap : a.isAsyncPlaceholder = true
    · have h := hwf hap
      rw [hbf] at h
      simp at h
    · simp [hap, Bool.and_eq_true, Bool.or_eq_true, beq_iff_eq]
      tauto
  | some f =>
    simp [Bool.and_eq_true, Bool.or_eq_true, beq_iff_eq, Bool.not_eq_true']
    tauto

theorem sameVnode_spec_witness :
    (exPlaceholder.isAsyncPlaceholder = true →
      (exNextRender.asyncFactory).isSome) ∧
    (sameVnode exPlaceholder exNextRender = true ↔
      (exPlaceholder.key = exNextRender.key ∧
        exPlaceholder.asyncFactory = exNextRender.asyncFactory ∧
        ((exPlaceholder.tag = exNextRender.tag ∧
          exPlaceholder.isComment = exNextRender.isComment ∧
          exPlaceholder.data.isSome = exNextRender.data.isSome ∧
          sameInputType exPlaceholder exNextRender = true) ∨
         (exPlaceholder.isAsyncPlaceholder = true ∧
          ∃ f, exNextRender.asyncFactory = some f ∧ f.error = false)))) :=
  ⟨fun _ => rfl, sameVnode_spec exPlaceholder exNextRender (fun _ => rfl)⟩

theorem array_mutator_spec_witness :
    (mutator ⟨[Val.prim 1, Val.prim 2], [], 0⟩ (.push [Val.obj 5])).1.arr
      = [Val.prim 1, Val.prim 2, Val.obj 5] ∧
    (mutator ⟨[Val.prim 1, Val.prim 2], [], 0⟩ (.push [Val.obj 5])).1.observedVals
      = [] ++ insertedOf (.push [Val.obj 5]) ∧
    (mutator ⟨[Val.prim 1, Val.prim 2], [], 0⟩ (.push [Val.obj 5])).1.notifyCount
      = 0 + 1 :=
  ⟨((array_mutator_spec ⟨[Val.prim 1, Val.prim 2], [], 0⟩
      (.push [Val.obj 5])).1).trans (by decide),
   (array_mutator_spec ⟨[Val.prim 1, Val.prim 2], [], 0⟩
      (.push [Val.obj 5])).2.2.2.1,
   (array_mutator_spec ⟨[Val.prim 1, Val.prim 2], [], 0⟩
      (.push [Val.obj 5])).2.2.2.2⟩

/-! ## The patch engine (`src/core/vdom/patch.js`)

The node-operations backend is the DOM: output nodes are numeric ids,
the element tree is a map `parent id ↦ ordered child ids`, and every
backend call is also appended to an operation log `ops`.  Module hook
callbacks and `data.hook` callbacks are external collaborators (spec
§6); invoking one is recorded in the event log `events` (`cbs.create`
etc. are invoked once per registered module callback, so `nCreate`
copies of the event are appended).  `nextElm` allocates output-node
ids, `nextNid` allocates vnode identities for `cloneVNode`. -/

inductive NodeOp where
  | createElement (elm : Nat) (tg : String)
  | createElementNS (elm : Nat) (nsp tg : String)
  | createTextNode (elm : Nat) (txt : Option String)
  | createComment (elm : Nat) (txt : Option String)
  | insertBefore (parentId child : Nat) (ref : Option Nat)
  | appendChild (parentId child : Nat)
  | removeChild (parentId child : Nat)
  | setTextContent (elm : Nat) (txt : String)
  | setStyleScope (elm : Nat) (scope : String)
  deriving Repr, DecidableEq

inductive PEvent where
  | cbCreate
  | cbActivate
  | cbUpdate
  | cbRemove
  | cbDestroy
  | hookInit
  | hookCreate
  | hookPrepatch
  | hookUpdate
  | hookPostpatch
  | hookDestroy
  | hookRemove
  | hydrateCalled
  | registerRef
  | warnDuplicateKey (k : KVal)
  | dupKeyHole
  | fuelOut
  deriving Repr, DecidableEq

/-- The fixed patch environment built by `createPatchFunction`: the
number of module callbacks registered for each hook phase, the dev-mode
flag, and the globals read by `setScope` (`activeInstance` and the
`$options._scopeId` table of component instances). -/
structure PatchCtx where
  nCreate : Nat
  nActivate : Nat
  nUpdate : Nat
  nRemove : Nat
  nDestroy : Nat
  dev : Bool
  activeInstance : Option Nat
  ctxScopeIds : List (Nat × String)
  deriving Repr, DecidableEq

structure PatchSt where
  dom : List (Nat × List Nat)
  nextElm : Nat
  nextNid : Nat
  ops : List NodeOp
  events : List PEvent
  deriving Repr, DecidableEq

def domChildren (st : PatchSt) (p : Nat) : List Nat :=
  ((st.dom.find? (fun e => e.1 == p)).map Prod.snd).getD []

/-- `nodeOps.parentNode`. -/
def domParent (st : PatchSt) (c : Nat) : Option Nat :=
  (st.dom.find? (fun e => e.2.contains c)).map Prod.fst

/-- `nodeOps.nextSibling`. -/
def nextAfter (c : Nat) : List Nat → Option Nat
  | [] => none
  | x :: xs => if x = c then xs.head? else nextAfter c xs

def domNextSibling (st : PatchSt) (c : Nat) : Option Nat :=
  match st.dom.find? (fun e => e.2.contains c) with
  | none => none
  | some e => nextAfter c e.2

/-- Remove a node from whatever parent holds it (a DOM node moves when
re-inserted elsewhere). -/
def domDetach (st : PatchSt) (c : Nat) : PatchSt :=
  { st with dom := st.dom.map (fun e => (e.1, e.2.filter (fun x => x ≠ c))) }

def listInsertBefore (c r : Nat) : List Nat → List Nat
  | [] => [c]
  | x :: xs => if x = r then c :: x :: xs else x :: listInsertBefore c r xs

/-- `nodeOps.insertBefore(parent, child, ref)`; a `none` ref appends
(DOM `insertBefore` with a null reference). -/
def opInsertBefore (st : PatchSt) (p c : Nat) (ref : Option Nat) : PatchSt :=
  let st1 := domDetach st c
  { st1 with
      dom := st1.dom.map fun e =>
        if e.1 == p then
          (e.1, match ref with
                | none => e.2 ++ [c]
                | some r => listInsertBefore c r e.2)
        else e
      ops := st1.ops ++ [.insertBefore p c ref] }

/-- `nodeOps.appendChild(parent, child)`. -/
def opAppendChild (st : PatchSt) (p c : Nat) : PatchSt :=
  let st1 := domDetach st c
  { st1 with
      dom := st1.dom.map fun e => if e.1 == p then (e.1, e.2 ++ [c]) else e
      ops := st1.ops ++ [.appendChild p c] }

/-- `nodeOps.removeChild(parent, child)`. -/
def opRemoveChild (st : PatchSt) (p c : Nat) : PatchSt :=
  { st with
      dom := st.dom.map fun e => if e.1 == p then (e.1, e.2.filter (fun x => x ≠ c)) else e
      ops := st.ops ++ [.removeChild p c] }

/-- `nodeOps.createElement(tag)`: allocates a fresh element node. -/
def opCreateElement (st : PatchSt) (tg : String) : PatchSt × Nat :=
  ({ st with dom := st.dom ++ [(st.nextElm, [])]
             nextElm := st.nextElm + 1
             ops := st.ops ++ [.createElement st.nextElm tg] }, st.nextElm)

def opCreateElementNS (st : PatchSt) (nsp tg : String) : PatchSt × Nat :=
  ({ st with dom := st.dom ++ [(st.nextElm, [])]
             nextElm := st.nextElm + 1
             ops := st.ops ++ [.createElementNS st.nextElm nsp tg] }, st.nextElm)

/-- `nodeOps.createTextNode` (text nodes cannot hold children, so no
tree entry is allocated). -/
def opCreateTextNode (st : PatchSt) (txt : Option String) : PatchSt × Nat :=
  ({ st with nextElm := st.nextElm + 1
             ops := st.ops ++ [.createTextNode st.nextElm txt] }, st.nextElm)

def opCreateComment (st : PatchSt) (txt : Option String) : PatchSt × Nat :=
  ({ st with nextElm := st.nextElm + 1
             ops := st.ops ++ [.createComment st.nextElm txt] }, st.nextElm)

/-- `nodeOps.setTextContent(elm, text)`: replaces the node's content
(clearing any element children). -/
def opSetTextContent (st : PatchSt) (elm : Nat) (txt : String) : PatchSt :=
  { st with dom := st.dom.map fun e => if e.1 == elm then (e.1, []) else e
            ops := st.ops ++ [.setTextContent elm txt] }

def opSetStyleScope (st : PatchSt) (elm : Option Nat) (scope : String) : PatchSt :=
  match elm with
  | some e => { st with ops := st.ops ++ [.setStyleScope e scope] }
  | none => st

def pushEvents (st : PatchSt) (evs : List PEvent) : PatchSt :=
  { st with events := st.events ++ evs }

/-- `removeNode(el)`: look up the parent and `removeChild` when it is
still attached. -/
def removeNode (st : PatchSt) (el : Option Nat) : PatchSt :=
  match el with
  | none => st
  | some e =>
    match domParent st e with
    | some p => opRemoveChild st p e
    | none => st

/-- `insert(parent, elm, ref)`: `insertBefore` when the ref is present
and still under the same parent, `appendChild` otherwise. -/
def insertFn (st : PatchSt) (parentElm : Option Nat) (elm : Nat)
    (ref : Option Nat) : PatchSt :=
  match parentElm with
  | none => st
  | some p =>
    match ref with
    | some r => if domParent st r == some p then opInsertBefore st p elm (some r) else st
    | none => opAppendChild st p elm

/-- `isPatchable(vnode)`: descend through component-instance roots and
test whether a tag is defined. -/
def isPatchable : VNode → Bool
  | .mk _ tg _ _ _ _ _ _ _ _ _ (some inst) _ _ _ _ _ _ _ _ =>
    let _ := tg
    isPatchable inst
  | .mk _ tg _ _ _ _ _ _ _ _ _ none _ _ _ _ _ _ _ _ => tg.isSome

/-- The component instance's `$el`: the root vnode's output node. -/
def instanceEl : Option VNode → Option Nat
  | some root => root.elm
  | none => none

/-- The `$options._scopeId` of a component instance id, from the
context table. -/
def scopeIdOf (ctx : PatchCtx) (inst : Nat) : Option String :=
  (ctx.ctxScopeIds.find? (fun e => e.1 == inst)).map Prod.snd

/-- The ancestor walk of `setScope`: for every node up the `parent`
chain whose rendering context has a `_scopeId`, mark the element. -/
def setScopeWalk (ctx : PatchCtx) (st : PatchSt) (elm : Option Nat) :
    VNode → PatchSt
  | .mk _ _ _ _ _ _ _ c _ _ _ _ par _ _ _ _ _ _ _ =>
    let st1 :=
      match c.bind (scopeIdOf ctx) with
      | some sid => opSetStyleScope st elm sid
      | none => st
    match par with
    | some p => setScopeWalk ctx st1 elm p
    | none => st1

/-- `setScope(vnode)`: functional scope id, else the ancestor walk;
then the slot-content case for the active instance. -/
def setScope (ctx : PatchCtx) (st : PatchSt) (vnode : VNode) : PatchSt :=
  let st1 :=
    match vnode.fnScopeId with
    | some sid => opSetStyleScope st vnode.elm sid
    | none => setScopeWalk ctx st vnode.elm vnode
  match ctx.activeInstance with
  | some ai =>
    if vnode.context ≠ some ai ∧ vnode.fnContext ≠ some ai then
      match scopeIdOf ctx ai with
      | some sid => opSetStyleScope st1 vnode.elm sid
      | none => st1
    else st1
  | none => st1

/-- `invokeCreateHooks(vnode, queue)`: run every module `create`
callback, then the node's own `create` hook, and queue the node when it
declares an `insert` hook. -/
def invokeCreateHooks (ctx : PatchCtx) (st : PatchSt) (q : List VNode)
    (vnode : VNode) : PatchSt × List VNode :=
  let st1 := pushEvents st (List.replicate ctx.nCreate .cbCreate)
  match vnode.data with
  | some d =>
    let st2 := if d.hookCreate then pushEvents st1 [.hookCreate] else st1
    (st2, if d.hookInsert then q ++ [vnode] else q)
  | none => (st1, q)

/-- `checkDuplicateKeys(children)` (dev builds): warn once per repeated
key. -/
def checkDuplicateKeys (st : PatchSt) (children : List VNode) : PatchSt :=
  (children.foldl
    (fun (acc : PatchSt × List KVal) vnode =>
      match vnode.key with
      | some k =>
        if k ∈ acc.2 then (pushEvents acc.1 [.warnDuplicateKey k], acc.2)
        else (acc.1, acc.2 ++ [k])
      | none => acc)
    (st, [])).1

/-- Indexed read of the (possibly holed) old children array: JS yields
`undefined` both outside the bounds and at a nulled slot. -/
def getHole (l : List (Option VNode)) (i : Int) : Option VNode :=
  if i < 0 then none else (l.get? i.toNat).join

def getNew (l : List VNode) (i : Int) : Option VNode :=
  if i < 0 then none else l.get? i.toNat

/-- `map[key] = i`: later writes overwrite earlier ones. -/
def kvUpsert (m : List (KVal × Int)) (k : KVal) (i : Int) : List (KVal × Int) :=
  if m.any (fun e => e.1 == k) then m.map (fun e => if e.1 == k then (k, i) else e)
  else m ++ [(k, i)]

/-- `createKeyToOldIdx(children, beginIdx, endIdx)`: hash every defined
key of the (hole-free at build time) range to its index. -/
def createKeyToOldIdx (children : List (Option VNode)) (beginIdx endIdx : Int) :
    List (KVal × Int) :=
  (List.range (endIdx + 1 - beginIdx).toNat).foldl
    (fun m j =>
      let i := beginIdx + (j : Int)
      match getHole children i with
      | some v =>
        match v.key with
        | some k => kvUpsert m k i
        | none => m
      | none => m)
    []

/-- `findIdxInOld(node, oldCh, start, end)`: linear scan for an
unkeyed same-node match; note the source iterates `i < end`, excluding
the final index. -/
def findIdxInOld (node : VNode) (oldCh : List (Option VNode)) (start endI : Int) :
    Option Int :=
  (List.range (endI - start).toNat).findSome? fun j =>
    let i := start + (j : Int)
    match getHole oldCh i with
    | some c => if sameVnode node c then some i else none
    | none => none

/-- `hydrate` (server-markup reattachment): its body is outside the
fragment exercised by the verified claims; the call is recorded. -/
def hydrateMark (st : PatchSt) : PatchSt :=
  pushEvents st [.hydrateCalled]

/-- The inner `while (innerNode.componentInstance)` walk of
`reactivateComponent`: find the first inner root with a transition and
run the `activate` module callbacks on it. -/
def reactivateInner (ctx : PatchCtx) (st : PatchSt) (q : List VNode) :
    VNode → PatchSt × List VNode
  | .mk _ _ _ _ _ _ _ _ _ _ _ (some inst) _ _ _ _ _ _ _ _ =>
    if (inst.data.map (·.transition)).getD false then
      (pushEvents st (List.replicate ctx.nActivate .cbActivate), q ++ [inst])
    else reactivateInner ctx st q inst
  | _ => (st, q)

/-- Mirror of the JS shared-object mutation: inside the patch functions
`vnode` is the same object as `ownerArray[index]`, so its field updates
are visible through the array; the functional model writes the final
vnode back. -/
def ownerWrite (owner : Option (List VNode)) (index : Int) (vnode : VNode) :
    Option (List VNode) :=
  owner.map (fun l => l.set index.toNat vnode)

mutual

/-- `invokeDestroyHook(vnode)`: the node's `destroy` hook, every module
`destroy` callback, then all children recursively. -/
def invokeDestroyHook (ctx : PatchCtx) (st : PatchSt) : VNode → PatchSt
  | .mk _ _ d ch _ _ _ _ _ _ _ _ _ _ _ _ _ _ _ _ =>
    let st1 :=
      match d with
      | some dd =>
        let s := if dd.hookDestroy then pushEvents st [.hookDestroy] else st
        pushEvents s (List.replicate ctx.nDestroy .cbDestroy)
      | none => st
    match ch with
    | some cs => invokeDestroyHookList ctx st1 cs
    | none => st1

def invokeDestroyHookList (ctx : PatchCtx) (st : PatchSt) : List VNode → PatchSt
  | [] => st
  | v :: vs => invokeDestroyHookList ctx (invokeDestroyHook ctx st v) vs

end

/-- `removeAndInvokeRemoveHook(vnode, rm?)`: with a pending parent
countdown or own data, recurse into the component root, run the module
`remove` callbacks, and either hand removal over to the node's own
`remove` hook or remove the output node (the module callbacks receive
the shared countdown `rm`; in the default backend they complete
synchronously, which is the behavior modelled).  Without data and
without an inherited countdown the node is removed directly. -/
def removeAndInvokeRemoveHook (ctx : PatchCtx) (st : PatchSt)
    (hasParentRm : Bool) : VNode → PatchSt
  | .mk _ _ d _ _ e _ _ _ _ _ ci _ _ _ _ _ _ _ _ =>
    if hasParentRm || d.isSome then
      let st1 :=
        match ci with
        | some root =>
          if root.data.isSome then removeAndInvokeRemoveHook ctx st true root
          else st
        | none => st
      let st2 := pushEvents st1 (List.replicate ctx.nRemove .cbRemove)
      match d with
      | some dd =>
        if dd.hookRemove then pushEvents st2 [.hookRemove]
        else removeNode st2 e
      | none => removeNode st2 e
    else removeNode st e

/-- `removeVnodes(vnodes, startIdx, endIdx)`: tagged entries get the
removal hooks and destroy hooks, text nodes are removed directly, holes
are skipped. -/
def removeVnodes (ctx : PatchCtx) (st : PatchSt) (vnodes : List (Option VNode))
    (startIdx endIdx : Int) : PatchSt :=
  (List.range (endIdx + 1 - startIdx).toNat).foldl
    (fun acc j =>
      let i := startIdx + (j : Int)
      match getHole vnodes i with
      | some ch =>
        if ch.tag.isSome then
          invokeDestroyHook ctx (removeAndInvokeRemoveHook ctx acc false ch) ch
        else removeNode acc ch.elm
      | none => acc)
    st

/-- `initComponent(vnode, insertedVnodeQueue)`: adopt the child
instance's `$el`; patchable roots get create hooks and scope marking,
empty roots are ref-registered and queued for the insert hook.
(`data.pendingInsert` is filled by a nested component patch, which is
outside the modelled entry points.) -/
def initComponent (ctx : PatchCtx) (st : PatchSt) (q : List VNode)
    (vnode : VNode) : PatchSt × List VNode × VNode :=
  let vnode := vnode.setElm (instanceEl vnode.componentInstance)
  if isPatchable vnode then
    let (st, q) := invokeCreateHooks ctx st q vnode
    (setScope ctx st vnode, q, vnode)
  else
    (pushEvents st [.registerRef], q ++ [vnode], vnode)

/-- `reactivateComponent(vnode, ...)` (keep-alive reactivation): walk
the inner roots for a transition, then insert the element. -/
def reactivateComponent (ctx : PatchCtx) (st : PatchSt) (q : List VNode)
    (vnode : VNode) (parentElm refElm : Option Nat) : PatchSt × List VNode :=
  let (st, q) := reactivateInner ctx st q vnode
  match vnode.elm with
  | some e => (insertFn st parentElm e refElm, q)
  | none => (st, q)

/-- `createComponent(vnode, insertedVnodeQueue, parentElm, refElm)`:
when data is present, invoke the external `init` hook (it would mount a
child instance; its internal effects are outside the reconciler and
recorded as an event); if the vnode then carries a component instance,
`initComponent`, insert, and possibly reactivate, returning `true`. -/
def createComponent (ctx : PatchCtx) (st : PatchSt) (q : List VNode)
    (vnode : VNode) (parentElm refElm : Option Nat) :
    PatchSt × List VNode × VNode × Bool :=
  match vnode.data with
  | none => (st, q, vnode, false)
  | some d =>
    let isReactivated := vnode.componentInstance.isSome && d.keepAlive
    let st := if d.hookInit then pushEvents st [.hookInit] else st
    if vnode.componentInstance.isSome then
      let (st, q, vnode) := initComponent ctx st q vnode
      let st :=
        match vnode.elm with
        | some e => insertFn st parentElm e refElm
        | none => st
      let (st, q) :=
        if isReactivated then reactivateComponent ctx st q vnode parentElm refElm
        else (st, q)
      (st, q, vnode, true)
    else (st, q, vnode, false)

/-- Result of the four-pointer diff loop of `updateChildren`. -/
structure ULoop where
  st : PatchSt
  q : List VNode
  oldCh : List (Option VNode)
  newCh : List VNode
  oldStartIdx : Int
  oldEndIdx : Int
  newStartIdx : Int
  newEndIdx : Int

mutual

/-- `createElm(vnode, insertedVnodeQueue, parentElm, refElm, nested,
ownerArray, index)`: clone a vnode reused from a previous render, try
the component path, then create an element (namespace-aware) with scope
marking, children, create hooks and insertion — or a comment/text
node.  (The dev-only unknown-element warning reads external config and
is not modelled; the `__WEEX__` branch is dead in the web build.) -/
def createElm (fuel : Nat) (ctx : PatchCtx) (st : PatchSt) (q : List VNode)
    (vnode : VNode) (parentElm refElm : Option Nat) (nested : Bool)
    (ownerArray : Option (List VNode)) (index : Int) :
    PatchSt × List VNode × Option (List VNode) × VNode :=
  match fuel with
  | 0 => (pushEvents st [.fuelOut], q, ownerArray, vnode)
  | fuel + 1 =>
    let (st, vnode) :=
      if vnode.elm.isSome && ownerArray.isSome then
        ({ st with nextNid := st.nextNid + 1 }, cloneVNode vnode st.nextNid)
      else (st, vnode)
    let vnode := vnode.setIsRootInsert (!nested)
    match createComponent ctx st q vnode parentElm refElm with
    | (st, q, vnode, true) =>
      (st, q, ownerWrite ownerArray index vnode, vnode)
    | (st, q, vnode, false) =>
      match vnode.tag with
      | some tg =>
        let (st, elmId) :=
          match vnode.ns with
          | some nsp => opCreateElementNS st nsp tg
          | none => opCreateElement st tg
        let vnode := vnode.setElm (some elmId)
        let st := setScope ctx st vnode
        let (st, q, children) := createChildren fuel ctx st q vnode vnode.children
        let vnode := vnode.setChildren children
        let (st, q) :=
          if vnode.data.isSome then invokeCreateHooks ctx st q vnode else (st, q)
        let st := insertFn st parentElm elmId refElm
        (st, q, ownerWrite ownerArray index vnode, vnode)
      | none =>
        if vnode.isComment then
          let (st, elmId) := opCreateComment st vnode.text
          let vnode := vnode.setElm (some elmId)
          let st := insertFn st parentElm elmId refElm
          (st, q, ownerWrite ownerArray index vnode, vnode)
        else
          let (st, elmId) := opCreateTextNode st vnode.text
          let vnode := vnode.setElm (some elmId)
          let st := insertFn st parentElm elmId refElm
          (st, q, ownerWrite ownerArray index vnode, vnode)

/-- `createChildren(vnode, children, insertedVnodeQueue)`: recursively
create and append list children (dev builds check duplicate keys), or
append a primitive text child. -/
def createChildren (fuel : Nat) (ctx : PatchCtx) (st : PatchSt) (q : List VNode)
    (vnode : VNode) (children : Option (List VNode)) :
    PatchSt × List VNode × Option (List VNode) :=
  match fuel with
  | 0 => (pushEvents st [.fuelOut], q, children)
  | fuel + 1 =>
    match children with
    | some cs =>
      let st := if ctx.dev then checkDuplicateKeys st cs else st
      let (st, q, cs) := createChildrenLoop fuel ctx st q vnode cs 0
      (st, q, some cs)
    | none =>
      match vnode.text with
      | some t =>
        match vnode.elm with
        | some e =>
          let (st, tid) := opCreateTextNode st (some t)
          (opAppendChild st e tid, q, none)
        | none => (st, q, none)
      | none => (st, q, none)

/-- The `for` loop of `createChildren`: `createElm(children[i], queue,
vnode.elm, null, true, children, i)`. -/
def createChildrenLoop (fuel : Nat) (ctx : PatchCtx) (st : PatchSt)
    (q : List VNode) (vnode : VNode) (cs : List VNode) (i : Nat) :
    PatchSt × List VNode × List VNode :=
  match fuel with
  | 0 => (pushEvents st [.fuelOut], q, cs)
  | fuel + 1 =>
    match cs.get? i with
    | some c =>
      let (st, q, owner, _) :=
        createElm fuel ctx st q c vnode.elm none true (some cs) (i : Int)
      createChildrenLoop fuel ctx st q vnode (owner.getD cs) (i + 1)
    | none => (st, q, cs)

/-- `addVnodes(parentElm, refElm, vnodes, startIdx, endIdx, queue)`. -/
def addVnodes (fuel : Nat) (ctx : PatchCtx) (st : PatchSt) (q : List VNode)
    (parentElm refElm : Option Nat) (vnodes : List VNode)
    (startIdx endIdx : Int) : PatchSt × List VNode × List VNode :=
  match fuel with
  | 0 => (pushEvents st [.fuelOut], q, vnodes)
  | fuel + 1 =>
    if startIdx ≤ endIdx then
      match getNew vnodes startIdx with
      | some v =>
        let (st, q, owner, _) :=
          createElm fuel ctx st q v parentElm refElm false (some vnodes) startIdx
        addVnodes fuel ctx st q parentElm refElm (owner.getD vnodes)
          (startIdx + 1) endIdx
      | none => (st, q, vnodes)
    else (st, q, vnodes)

/-- `patchVnode(oldVnode, vnode, insertedVnodeQueue, ownerArray, index,
removeOnly)`: identical references return immediately; a reused vnode
is cloned; the old element is adopted; async placeholders either
hydrate (resolved factory) or stay flagged; the static fast path only
carries over the component instance; otherwise run the `prepatch` hook,
the module/node `update` hooks, reconcile children or text, and finish
with the `postpatch` hook. -/
def patchVnode (fuel : Nat) (ctx : PatchCtx) (st : PatchSt) (q : List VNode)
    (oldVnode vnode : VNode) (ownerArray : Option (List VNode)) (index : Int)
    (removeOnly : Bool) : PatchSt × List VNode × Option (List VNode) × VNode :=
  if oldVnode.nid = vnode.nid then (st, q, ownerArray, vnode)
  else
    match fuel with
    | 0 => (pushEvents st [.fuelOut], q, ownerArray, vnode)
    | fuel + 1 =>
      let (st, vnode) :=
        if vnode.elm.isSome && ownerArray.isSome then
          ({ st with nextNid := st.nextNid + 1 }, cloneVNode vnode st.nextNid)
        else (st, vnode)
      let vnode := vnode.setElm oldVnode.elm
      if oldVnode.isAsyncPlaceholder then
        match vnode.asyncFactory with
        | some f =>
          if f.resolved then
            (hydrateMark st, q, ownerWrite ownerArray index vnode, vnode)
          else
            let vnode := vnode.setIsAsyncPlaceholder true
            (st, q, ownerWrite ownerArray index vnode, vnode)
        | none =>
          (st, q, ownerWrite ownerArray index vnode, vnode)
      else
      if vnode.isStatic && oldVnode.isStatic && vnode.key == oldVnode.key &&
          (vnode.isCloned || vnode.isOnce) then
        let vnode := vnode.setComponentInstance oldVnode.componentInstance
        (st, q, ownerWrite ownerArray index vnode, vnode)
      else
        let st :=
          match vnode.data with
          | some d => if d.hookPrepatch then pushEvents st [.hookPrepatch] else st
          | none => st
        let st :=
          match vnode.data with
          | some d =>
            if isPatchable vnode then
              let st := pushEvents st (List.replicate ctx.nUpdate .cbUpdate)
              if d.hookUpdate then pushEvents st [.hookUpdate] else st
            else st
          | none => st
        let (st, q, vnode) :=
          if vnode.text.isNone then
            match oldVnode.children, vnode.children with
            | some ocs, some ncs =>
              -- `if (oldCh !== ch)`: array identity, modelled through the
              -- element identities (a shared array holds the same vnode
              -- objects; and diffing a list against itself performs no
              -- operations, so the approximation is observationally
              -- equivalent)
              if ocs.map VNode.nid ≠ ncs.map VNode.nid then
                let (st, q, ncs) :=
                  updateChildren fuel ctx st q oldVnode.elm (ocs.map some) ncs
                    removeOnly
                (st, q, vnode.setChildren (some ncs))
              else (st, q, vnode)
            | none, some ncs =>
              let st := if ctx.dev then checkDuplicateKeys st ncs else st
              let st :=
                match oldVnode.text, oldVnode.elm with
                | some _, some e => opSetTextContent st e ""
                | _, _ => st
              let (st, q, ncs) :=
                addVnodes fuel ctx st q oldVnode.elm none ncs 0
                  ((ncs.length : Int) - 1)
              (st, q, vnode.setChildren (some ncs))
            | some ocs, none =>
              (removeVnodes ctx st (ocs.map some) 0 ((ocs.length : Int) - 1),
                q, vnode)
            | none, none =>
              match oldVnode.text, oldVnode.elm with
              | some _, some e => (opSetTextContent st e "", q, vnode)
              | _, _ => (st, q, vnode)
          else
            match vnode.text, oldVnode.elm with
            | some t, some e =>
              if oldVnode.text ≠ some t then (opSetTextContent st e t, q, vnode)
              else (st, q, vnode)
            | _, _ => (st, q, vnode)
        let st :=
          match vnode.data with
          | some d => if d.hookPostpatch then pushEvents st [.hookPostpatch] else st
          | none => st
        (st, q, ownerWrite ownerArray index vnode, vnode)

/-- `updateChildren(parentElm, oldCh, newCh, insertedVnodeQueue,
removeOnly)`: the four-pointer two-ended diff, then bulk insert of the
remaining new range or bulk removal of the remaining old range. -/
def updateChildren (fuel : Nat) (ctx : PatchCtx) (st : PatchSt) (q : List VNode)
    (parentElm : Option Nat) (oldCh : List (Option VNode)) (newCh : List VNode)
    (removeOnly : Bool) : PatchSt × List VNode × List VNode :=
  match fuel with
  | 0 => (pushEvents st [.fuelOut], q, newCh)
  | fuel + 1 =>
    let canMove := !removeOnly
    let st := if ctx.dev then checkDuplicateKeys st newCh else st
    let r := updateChildrenLoop fuel ctx st q parentElm oldCh newCh 0
      ((oldCh.length : Int) - 1) 0 ((newCh.length : Int) - 1) none canMove
      removeOnly
    if r.oldStartIdx > r.oldEndIdx then
      let refElm :=
        match getNew r.newCh (r.newEndIdx + 1) with
        | none => none
        | some v => v.elm
      addVnodes fuel ctx r.st r.q parentElm refElm r.newCh r.newStartIdx
        r.newEndIdx
    else if r.newStartIdx > r.newEndIdx then
      (removeVnodes ctx r.st r.oldCh r.oldStartIdx r.oldEndIdx, r.q, r.newCh)
    else (r.st, r.q, r.newCh)

/-- The `while (oldStartIdx <= oldEndIdx && newStartIdx <= newEndIdx)`
loop of `updateChildren`: skip old-list holes at either end; patch and
advance on start/start and end/end matches; patch and move on
start/end and end/start matches; otherwise fall back to the lazily
built key map (or a linear unkeyed scan), patching-and-moving a found
equivalent node (nulling its old slot), or creating a fresh element. -/
def updateChildrenLoop (fuel : Nat) (ctx : PatchCtx) (st : PatchSt)
    (q : List VNode) (parentElm : Option Nat) (oldCh : List (Option VNode))
    (newCh : List VNode) (oldStartIdx oldEndIdx newStartIdx newEndIdx : Int)
    (oldKeyToIdx : Option (List (KVal × Int))) (canMove removeOnly : Bool) :
    ULoop :=
  match fuel with
  | 0 =>
    ⟨pushEvents st [.fuelOut], q, oldCh, newCh, oldStartIdx, oldEndIdx,
      newStartIdx, newEndIdx⟩
  | fuel + 1 =>
    if oldStartIdx ≤ oldEndIdx ∧ newStartIdx ≤ newEndIdx then
      match getHole oldCh oldStartIdx with
      | none =>
        updateChildrenLoop fuel ctx st q parentElm oldCh newCh
          (oldStartIdx + 1) oldEndIdx newStartIdx newEndIdx oldKeyToIdx
          canMove removeOnly
      | some oldStartVnode =>
        match getHole oldCh oldEndIdx with
        | none =>
          updateChildrenLoop fuel ctx st q parentElm oldCh newCh
            oldStartIdx (oldEndIdx - 1) newStartIdx newEndIdx oldKeyToIdx
            canMove removeOnly
        | some oldEndVnode =>
          match getNew newCh newStartIdx, getNew newCh newEndIdx with
          | some newStartVnode, some newEndVnode =>
            if sameVnode oldStartVnode newStartVnode then
              let (st, q, owner, _) := patchVnode fuel ctx st q oldStartVnode
                newStartVnode (some newCh) newStartIdx removeOnly
              updateChildrenLoop fuel ctx st q parentElm oldCh
                (owner.getD newCh) (oldStartIdx + 1) oldEndIdx
                (newStartIdx + 1) newEndIdx oldKeyToIdx canMove removeOnly
            else if sameVnode oldEndVnode newEndVnode then
              let (st, q, owner, _) := patchVnode fuel ctx st q oldEndVnode
                newEndVnode (some newCh) newEndIdx removeOnly
              updateChildrenLoop fuel ctx st q parentElm oldCh
                (owner.getD newCh) oldStartIdx (oldEndIdx - 1) newStartIdx
                (newEndIdx - 1) oldKeyToIdx canMove removeOnly
            else if sameVnode oldStartVnode newEndVnode then
              let (st, q, owner, _) := patchVnode fuel ctx st q oldStartVnode
                newEndVnode (some newCh) newEndIdx removeOnly
              let st :=
                if canMove then
                  match oldStartVnode.elm, parentElm with
                  | some e, some p =>
                    opInsertBefore st p e (oldEndVnode.elm.bind (domNextSibling st))
                  | _, _ => st
                else st
              updateChildrenLoop fuel ctx st q parentElm oldCh
                (owner.getD newCh) (oldStartIdx + 1) oldEndIdx newStartIdx
                (newEndIdx - 1) oldKeyToIdx canMove removeOnly
            else if sameVnode oldEndVnode newStartVnode then
              let (st, q, owner, _) := patchVnode fuel ctx st q oldEndVnode
                newStartVnode (some newCh) newStartIdx removeOnly
              let st :=
                if canMove then
                  match oldEndVnode.elm, parentElm with
                  | some e, some p => opInsertBefore st p e oldStartVnode.elm
                  | _, _ => st
                else st
              updateChildrenLoop fuel ctx st q parentElm oldCh
                (owner.getD newCh) oldStartIdx (oldEndIdx - 1)
                (newStartIdx + 1) newEndIdx oldKeyToIdx canMove removeOnly
            else
              let m :=
                match oldKeyToIdx with
                | some m => m
                | none => createKeyToOldIdx oldCh oldStartIdx oldEndIdx
              let idxInOld : Option Int :=
                match newStartVnode.key with
                | some k => (m.find? (fun e => e.1 == k)).map Prod.snd
                | none => findIdxInOld newStartVnode oldCh oldStartIdx oldEndIdx
              match idxInOld with
              | none =>
                let (st, q, owner, _) := createElm fuel ctx st q newStartVnode
                  parentElm oldStartVnode.elm false (some newCh) newStartIdx
                updateChildrenLoop fuel ctx st q parentElm oldCh
                  (owner.getD newCh) oldStartIdx oldEndIdx (newStartIdx + 1)
                  newEndIdx (some m) canMove removeOnly
              | some i =>
                match getHole oldCh i with
                | some vnodeToMove =>
                  if sameVnode vnodeToMove newStartVnode then
                    let (st, q, owner, _) := patchVnode fuel ctx st q vnodeToMove
                      newStartVnode (some newCh) newStartIdx removeOnly
                    let oldCh := oldCh.set i.toNat none
                    let st :=
                      if canMove then
                        match vnodeToMove.elm, parentElm with
                        | some e, some p => opInsertBefore st p e oldStartVnode.elm
                        | _, _ => st
                      else st
                    updateChildrenLoop fuel ctx st q parentElm oldCh
                      (owner.getD newCh) oldStartIdx oldEndIdx
                      (newStartIdx + 1) newEndIdx (some m) canMove removeOnly
                  else
                    let (st, q, owner, _) := createElm fuel ctx st q newStartVnode
                      parentElm oldStartVnode.elm false (some newCh) newStartIdx
                    updateChildrenLoop fuel ctx st q parentElm oldCh
                      (owner.getD newCh) oldStartIdx oldEndIdx
                      (newStartIdx + 1) newEndIdx (some m) canMove removeOnly
                | none =>
                  -- a repeated key in the new list maps to an already-nulled
                  -- old slot; the source would fault inside `sameVnode`
                  ⟨pushEvents st [.dupKeyHole], q, oldCh, newCh, oldStartIdx,
                    oldEndIdx, newStartIdx, newEndIdx⟩
          | _, _ =>
            ⟨st, q, oldCh, newCh, oldStartIdx, oldEndIdx, newStartIdx,
              newEndIdx⟩
    else
      ⟨st, q, oldCh, newCh, oldStartIdx, oldEndIdx, newStartIdx, newEndIdx⟩

end

/-! ### Concrete reconciliation scenario for the keyed move diff -/

/-- A childless element vnode `<div>` with identity `nd`, key `k` and
(for already-mounted nodes) output node `e`. -/
def elVNode (nd : Nat) (k : Int) (e : Option Nat) : VNode :=
  .mk nd (some "div") none none none e none none none none (some (.num k))
    none none false true false false false none false

/-- A backend with no module callbacks (production run). -/
def ctx7 : PatchCtx := ⟨0, 0, 0, 0, 0, false, none, []⟩

/-- Output tree before the diff: parent 1 holding children 10, 11, 12. -/
def st7 : PatchSt := ⟨[(1, [10, 11, 12])], 100, 200, [], []⟩

/-- Old children `[A, B, C]` with keys 1, 2, 3, mounted at 10, 11, 12. -/
def old7 : List VNode :=
  [elVNode 1 1 (some 10), elVNode 2 2 (some 11), elVNode 3 3 (some 12)]

/-- New children `[C, A, B]` with keys 3, 1, 2, not yet mounted. -/
def new7 : List VNode :=
  [elVNode 4 3 none, elVNode 5 1 none, elVNode 6 2 none]

/-- **C7**.  Diffing old `[A,B,C]` (keys 1,2,3) against new `[C,A,B]`
(keys 3,1,2): the final patch state shows that the only node operation
performed on the parent is a single `insertBefore` move (no
create/remove operation appears in the log and the output-node
allocator is untouched, so no output node is created or destroyed), the
parent ends up with the same three output nodes reordered to
`[12, 10, 11]`, and each new child has adopted one of the existing
output nodes (C↦12, A↦10, B↦11 — all three reused). -/
theorem updateChildren_move_reuses_all_nodes :
    (updateChildren 20 ctx7 st7 [] (some 1) (old7.map some) new7 false).1 =
      ⟨[(1, [12, 10, 11])], 100, 200, [.insertBefore 1 12 (some 10)], []⟩ ∧
    ((updateChildren 20 ctx7 st7 [] (some 1) (old7.map some) new7 false).2.2.map
        VNode.elm) = [some 12, some 10, some 11] :=
  ⟨rfl, rfl⟩

/-- **C10**.  `patchVnode` called with the same object as old and new
vnode (`oldVnode === vnode`) returns immediately: the patch state (DOM
tree, allocators, operation log and event log — so no node operation,
module callback or data hook) is untouched, the inserted-vnode queue is
untouched, and neither the owner array nor the vnode is modified. -/
theorem patchVnode_identical_reference_noop (fuel : Nat) (ctx : PatchCtx)
    (st : PatchSt) (q : List VNode) (v : VNode)
    (ownerArray : Option (List VNode)) (index : Int) (removeOnly : Bool) :
    patchVnode fuel ctx st q v v ownerArray index removeOnly =
      (st, q, ownerArray, v) := by
  unfold patchVnode
  simp

end VueCore
